import Mathlib

/-!
Verification of the kine charm (`src/lib/charm.py`) against its
natural-language specification.

The Python source is shallowly embedded below.  Relation data bags
(`relation.data[unit]`) are association lists from field names to strings
(`Slot`); a relation is the list of the data bags of its units; the stored
state is `ClusterState`.  Fallible Python code (raising `ValueError`,
`KeyError`, json decode errors, ...) is embedded in `Except PyErr`.
`json.loads` / `json.dumps(..., sort_keys=True)` are embedded by an
executable JSON parser / serializer over the `PyVal` type.
-/

/-- Python exception kinds raised by the embedded code paths. -/
inductive PyErr where
  | valueError
  | indexError
  | keyError
  | typeError
  | attributeError
  | parseError
deriving DecidableEq, Repr

/-- A relation data bag for one unit: `relation.data[unit]`, a Python dict
with string keys and string values, kept in insertion order. -/
abbrev Slot := List (String × String)

/-- Python dict lookup `m.get(key)` on an association list. -/
def pyGet {α : Type} : List (String × α) → String → Option α
  | [], _ => none
  | (k, v) :: rest, key => if k = key then some v else pyGet rest key

/-- Python dict assignment `m[key] = v`: replaces in place if the key is
present (keeping its position), otherwise appends. -/
def pyDictSet {α : Type} : List (String × α) → String → α → List (String × α)
  | [], key, v => [(key, v)]
  | (k, w) :: tl, key, v =>
      if k = key then (k, v) :: tl else (k, w) :: pyDictSet tl key v

/-- The decimal digit character for `n < 10` (code point `48 + n`). -/
def digitChar (n : Nat) : Char := Char.ofNat (48 + n)

/-- Numeric value of a decimal digit character. -/
def digitVal (c : Char) : Nat := c.toNat - 48

/-- Whether `c` is an ASCII decimal digit. -/
def isDigitChar (c : Char) : Bool := 48 ≤ c.toNat && c.toNat ≤ 57

/-- Fuel-driven accumulator loop producing the decimal digits of `n`
(most significant first) in front of `acc`. -/
def natDigitsAux : Nat → Nat → List Char → List Char
  | 0, _, acc => acc
  | fuel + 1, n, acc =>
      if n < 10 then digitChar n :: acc
      else natDigitsAux fuel (n / 10) (digitChar (n % 10) :: acc)

/-- Decimal digit string of a natural number, as produced by Python
`str` / f-string formatting of a nonnegative integer. -/
def natDigits (n : Nat) : List Char := natDigitsAux (n + 1) n []

/-- Python `str` of an integer. -/
def pyStr (i : Int) : String :=
  if i < 0 then ('-' :: natDigits i.natAbs).asString
  else (natDigits i.natAbs).asString

/-- Value (wrapped in `some`) of an all-digit nonempty character list, else
`none`. -/
def digitsToNat (cs : List Char) : Option Nat :=
  if cs = [] then none
  else if cs.all isDigitChar then
    some (cs.foldl (fun a c => a * 10 + digitVal c) 0)
  else none

/-- Python `int(s)` on the character list of `s`: optional leading minus
sign followed by decimal digits; anything else raises `ValueError`. -/
def pyInt (cs : List Char) : Except PyErr Int :=
  if cs.head? = some '-' then
    match digitsToNat (cs.drop 1) with
    | some n => .ok (-(n : Int))
    | none => .error .valueError
  else
    match digitsToNat cs with
    | some n => .ok ((n : Int))
    | none => .error .valueError

/-- Python `s.split(sep)` for a single-character separator, on character
lists.  `splitChar sep [] = [[]]`, matching Python `"".split(sep) = [""]`. -/
def splitChar (sep : Char) : List Char → List (List Char)
  | [] => [[]]
  | c :: cs =>
      let r := splitChar sep cs
      if c = sep then [] :: r
      else
        match r with
        | [] => [[c]]
        | g :: gs => (c :: g) :: gs

/-- Embedding of `KineCharm.get_unit_id`:
`(int(unit.name.split('/')[1]) % 9) + 1`.  A name without `'/'` raises
`IndexError`; a non-numeric ordinal raises `ValueError`. -/
def get_unit_id (name : String) : Except PyErr Int :=
  match (splitChar '/' name.toList).get? 1 with
  | none => .error .indexError
  | some part =>
      match pyInt part with
      | .ok n => .ok (n % 9 + 1)
      | .error e => .error e

/-- The f-string body of `KineCharm.get_peer_identity`:
`f"{id_}:{address}:918{id_}"` applied to an already-computed unit id. -/
def format_peer_identity (i : Int) (address : String) : String :=
  pyStr i ++ ":" ++ address ++ ":918" ++ pyStr i

/-- Embedding of `KineCharm.get_peer_identity`: derives the unit id from the unit name
and formats the peer identity string. -/
def get_peer_identity (name address : String) : Except PyErr String :=
  match get_unit_id name with
  | .ok i => .ok (format_peer_identity i address)
  | .error e => .error e

/-- Python `sep.join(xs)`. -/
def pyJoin (sep : String) : List String → String
  | [] => ""
  | [x] => x
  | x :: y :: rest => x ++ sep ++ pyJoin sep (y :: rest)

/-- Embedding of `KineCharm.get_dqlite_endpoint`:
prepends `dqlite://?peer=` to the peers joined with `&peer=`, as a function of
the stored peer list. -/
def get_dqlite_endpoint (peers : List String) : String :=
  "dqlite://?peer=" ++ pyJoin "&peer=" peers

/-- The `StoredState` fields of the charm used by the handlers:
`state.peers` and `state.endpoint` (`None` before first configuration). -/
structure ClusterState where
  peers : List String
  endpoint : Option String
deriving DecidableEq, Repr

/-- Embedding of `KineCharm.on_config_changed`: recomputes the endpoint from the stored
peers; if it differs from the stored endpoint, stores it and restarts the
service (the returned `Bool` records whether the snap reconfiguration and
restart were triggered). -/
def on_config_changed (st : ClusterState) : ClusterState × Bool :=
  let endpoint := get_dqlite_endpoint st.peers
  if st.endpoint ≠ some endpoint then
    ({ st with endpoint := some endpoint }, true)
  else (st, false)

/-- The loop body of `KineCharm.on_cluster_relation_changed`: collects
`peer_identity` values of the relation units of the event in order, skipping
units whose data bag lacks the field. -/
def collect_peer_identities : List Slot → List String
  | [] => []
  | u :: rest =>
      match pyGet u "peer_identity" with
      | some pid => pid :: collect_peer_identities rest
      | none => collect_peer_identities rest

/-- The peer list rebuilt by `on_cluster_relation_changed` for a unit with
id `i`: the self identity bound to `0.0.0.0` first, then every announced
`peer_identity` verbatim. -/
def rebuild_peers (i : Int) (units : List Slot) : List String :=
  format_peer_identity i "0.0.0.0" :: collect_peer_identities units

/-- Embedding of `KineCharm.on_cluster_relation_changed`: overwrites `state.peers` with
the freshly rebuilt list (self first, then announcements), then runs
`on_config_changed`. -/
def on_cluster_relation_changed (name : String) (st : ClusterState)
    (units : List Slot) : Except PyErr (ClusterState × Bool) :=
  match get_peer_identity name "0.0.0.0" with
  | .error e => .error e
  | .ok selfIdent =>
      .ok (on_config_changed
        { st with peers := selfIdent :: collect_peer_identities units })

/-- JSON values, the image of Python `json.loads` (numbers restricted to
integers: the serialized maps of the charm contain only objects, arrays and
strings). -/
inductive PyVal where
  | pynone
  | pybool (b : Bool)
  | pyint (i : Int)
  | pystr (s : String)
  | pylist (items : List PyVal)
  | pydict (entries : List (String × PyVal))

/-- Python truthiness of a JSON value (`if not certs_data: ...`). -/
def jsonTruthy : PyVal → Bool
  | .pynone => false
  | .pybool b => b
  | .pyint n => n != 0
  | .pystr s => s ≠ ""
  | .pylist xs => !xs.isEmpty
  | .pydict kvs => !kvs.isEmpty

/-- Lexicographic comparison of character lists by code point, which is
how Python compares strings when sorting dict keys. -/
def charListLt : List Char → List Char → Bool
  | _, [] => false
  | [], _ :: _ => true
  | x :: xs, y :: ys =>
      if x < y then true
      else if y < x then false
      else charListLt xs ys

/-- Python string comparison `a < b` (code-point lexicographic). -/
def pyStrLt (a b : String) : Bool := charListLt a.toList b.toList

/-- Insert a key/value pair into a key-sorted association list, keeping it
sorted by key. -/
def insertByKey {α : Type} (p : String × α) :
    List (String × α) → List (String × α)
  | [] => [p]
  | q :: rest => if pyStrLt q.1 p.1 then q :: insertByKey p rest else p :: q :: rest

/-- Sort an association list by key (insertion sort, stable), as
`json.dumps(..., sort_keys=True)` does with Python dict keys. -/
def sortByKey {α : Type} : List (String × α) → List (String × α)
  | [] => []
  | p :: rest => insertByKey p (sortByKey rest)

/-- Escape a character for a JSON string literal (the charm data never
holds control characters, so quote and backslash are the relevant cases). -/
def escapeChar (c : Char) : String :=
  if c = '"' then "\\\""
  else if c = '\\' then "\\\\"
  else String.singleton c

/-- Escape a string for a JSON string literal. -/
def escapeStr (s : String) : String :=
  (s.toList.map escapeChar).foldl (· ++ ·) ""

mutual

/-- Python `json.dumps(v, sort_keys=True)` with the default separators
(comma-space between items, colon-space after keys): object entries are
emitted in key-sorted order at every
nesting level (each entry is rendered and the rendered entries are ordered
by their original key, which is the same thing since rendering is
per-entry). -/
def jsonDumpsSorted : PyVal → String
  | .pynone => "null"
  | .pybool b => if b then "true" else "false"
  | .pyint n => pyStr n
  | .pystr s => "\"" ++ escapeStr s ++ "\""
  | .pylist xs => "[" ++ pyJoin ", " (jsonDumpsList xs) ++ "]"
  | .pydict kvs =>
      "\x7b" ++ pyJoin ", " ((sortByKey (jsonDumpsObj kvs)).map (·.2)) ++ "\x7d"

/-- Serialize each array element. -/
def jsonDumpsList : List PyVal → List String
  | [] => []
  | x :: xs => jsonDumpsSorted x :: jsonDumpsList xs

/-- Serialize each object entry as `"key": value`, keeping the key
alongside for sorting. -/
def jsonDumpsObj : List (String × PyVal) → List (String × String)
  | [] => []
  | (k, v) :: tl =>
      (k, "\"" ++ escapeStr k ++ "\": " ++ jsonDumpsSorted v) :: jsonDumpsObj tl

end

/-- Skip JSON whitespace. -/
def skipWs : List Char → List Char
  | [] => []
  | c :: cs =>
      if c = ' ' || c = '\t' || c = '\n' || c = '\r' then skipWs cs
      else c :: cs

/-- Table of single-character JSON string escapes, mirroring the BACKSLASH
lookup dict of the Python json decoder. -/
def escTable : List (Char × Char) :=
  [('"', '"'), ('\\', '\\'), ('/', '/'), ('b', Char.ofNat 8),
   ('f', Char.ofNat 12), ('n', '\n'), ('r', '\r'), ('t', '\t')]

/-- The character denoted by a single-character JSON string escape. -/
def escCharVal (e : Char) : Option Char :=
  match escTable.find? (fun q => q.1 == e) with
  | some q => some q.2
  | none => none

/-- Parse the body of a JSON string after the opening quote, returning the
characters of the string and the remaining input. -/
def pStringAux : List Char → Except PyErr (List Char × List Char)
  | [] => .error .parseError
  | c :: cs =>
      if c = '"' then .ok ([], cs)
      else if c = '\\' then
        match cs with
        | [] => .error .parseError
        | e :: cs2 =>
            match escCharVal e with
            | some ch => (pStringAux cs2).map (fun p => (ch :: p.1, p.2))
            | none => .error .parseError
      else (pStringAux cs).map (fun p => (c :: p.1, p.2))

/-- Take a maximal prefix of decimal digits. -/
def takeDigits : List Char → List Char × List Char
  | [] => ([], [])
  | c :: cs =>
      if isDigitChar c then
        let p := takeDigits cs
        (c :: p.1, p.2)
      else ([], c :: cs)

/-- Parse a JSON integer (optional minus sign and digits). -/
def pNumber (cs : List Char) : Except PyErr (PyVal × List Char) :=
  match cs with
  | '-' :: rest =>
      let p := takeDigits rest
      match digitsToNat p.1 with
      | some n => .ok (.pyint (-(n : Int)), p.2)
      | none => .error .parseError
  | _ =>
      let p := takeDigits cs
      match digitsToNat p.1 with
      | some n => .ok (.pyint (n : Int), p.2)
      | none => .error .parseError

/-- Match a literal character sequence. -/
def pLit : List Char → List Char → Option (List Char)
  | [], cs => some cs
  | _, [] => none
  | l :: ls, c :: cs => if c = l then pLit ls cs else none

mutual

/-- Parse one JSON value (fuel-driven recursive descent; the callers
supply more fuel than the input length, so fuel never runs out on inputs
the parser accepts or rejects for a real reason). -/
def pValue : Nat → List Char → Except PyErr (PyVal × List Char)
  | 0, _ => .error .parseError
  | fuel + 1, cs =>
      match skipWs cs with
      | [] => .error .parseError
      | c :: rest =>
          if c = '"' then
            (pStringAux rest).map (fun p => (.pystr p.1.asString, p.2))
          else if c = '\x7b' then pObj fuel rest
          else if c = '[' then pArr fuel rest
          else if c = 't' then
            match pLit ['r', 'u', 'e'] rest with
            | some r => .ok (.pybool true, r)
            | none => .error .parseError
          else if c = 'f' then
            match pLit ['a', 'l', 's', 'e'] rest with
            | some r => .ok (.pybool false, r)
            | none => .error .parseError
          else if c = 'n' then
            match pLit ['u', 'l', 'l'] rest with
            | some r => .ok (.pynone, r)
            | none => .error .parseError
          else pNumber (c :: rest)

/-- Parse the contents of a JSON array after `[`. -/
def pArr : Nat → List Char → Except PyErr (PyVal × List Char)
  | 0, _ => .error .parseError
  | fuel + 1, cs =>
      match skipWs cs with
      | ']' :: rest => .ok (.pylist [], rest)
      | cs2 =>
          match pValue fuel cs2 with
          | .error e => .error e
          | .ok (item, rem) => pArrRest fuel [item] rem

/-- Parse `, value` continuations of a JSON array up to `]`. -/
def pArrRest : Nat → List PyVal → List Char → Except PyErr (PyVal × List Char)
  | 0, _, _ => .error .parseError
  | fuel + 1, acc, cs =>
      match skipWs cs with
      | ',' :: rest =>
          match pValue fuel rest with
          | .error e => .error e
          | .ok (item, rem) => pArrRest fuel (acc ++ [item]) rem
      | ']' :: rest => .ok (.pylist acc, rest)
      | _ => .error .parseError

/-- Parse the contents of a JSON object after the opening brace. -/
def pObj : Nat → List Char → Except PyErr (PyVal × List Char)
  | 0, _ => .error .parseError
  | fuel + 1, cs =>
      match skipWs cs with
      | '\x7d' :: rest => .ok (.pydict [], rest)
      | cs2 => pObjPair fuel [] cs2

/-- Parse one `"key": value` object entry; duplicate keys update the
existing entry in place, as Python dict construction does. -/
def pObjPair : Nat → List (String × PyVal) → List Char →
    Except PyErr (PyVal × List Char)
  | 0, _, _ => .error .parseError
  | fuel + 1, acc, cs =>
      match skipWs cs with
      | '"' :: rest =>
          match pStringAux rest with
          | .error e => .error e
          | .ok (k, r1) =>
              match skipWs r1 with
              | ':' :: r2 =>
                  match pValue fuel r2 with
                  | .error e => .error e
                  | .ok (item, r3) => pObjSep fuel (pyDictSet acc k.asString item) r3
              | _ => .error .parseError
      | _ => .error .parseError

/-- Parse the `,` or closing brace after an object entry. -/
def pObjSep : Nat → List (String × PyVal) → List Char →
    Except PyErr (PyVal × List Char)
  | 0, _, _ => .error .parseError
  | fuel + 1, acc, cs =>
      match skipWs cs with
      | ',' :: rest => pObjPair fuel acc rest
      | '\x7d' :: rest => .ok (.pydict acc, rest)
      | _ => .error .parseError

end

/-- Python `json.loads`: parse one JSON value and require only whitespace
to remain; any other outcome raises a decode error. -/
def jsonLoads (s : String) : Except PyErr PyVal :=
  let cs := s.toList
  match pValue (2 * cs.length + 4) cs with
  | .error e => .error e
  | .ok (v, rest) =>
      if skipWs rest = [] then .ok v else .error .parseError

/-- Embedding of `TlsRequires.request_client_cert`, as a function of the
data bag of the local unit on each relation of the `certificates`
endpoint.  With no
relation it returns immediately; otherwise it reads the serialized
request map from the first relation (defaulting to an empty map when the
field is absent), sets the entry of `cn` in the map to the record holding
`sans`, and writes the
map back serialized with sorted keys. -/
def request_client_cert (relations : List Slot) (cn : String)
    (sans : List String) : Except PyErr (List Slot) :=
  match relations with
  | [] => .ok []
  | slot :: rest =>
      match jsonLoads ((pyGet slot "client_cert_requests").getD "\x7b\x7d") with
      | .error e => .error e
      | .ok (.pydict kvs) =>
          .ok (pyDictSet slot "client_cert_requests"
                (jsonDumpsSorted
                  (.pydict (pyDictSet kvs cn (.pydict [("sans", .pylist (sans.map .pystr))]))))
              :: rest)
      | .ok _ => .error .typeError

/-- The scan of `TlsRequires.root_ca_cert` over the flattened sequence of
data bags of the remote units: returns the first truthy `ca` field. -/
def root_ca_scan : List Slot → Option String
  | [] => none
  | slot :: rest =>
      match pyGet slot "ca" with
      | some s => if s ≠ "" then some s else root_ca_scan rest
      | none => root_ca_scan rest

/-- Embedding of `TlsRequires.root_ca_cert`: iterates all `certificates` relations and
their units, returning the first non-empty `ca` value, `none` if there is
none. -/
def root_ca_cert (relations : List (List Slot)) : Option String :=
  root_ca_scan relations.flatten

/-- Python `unit_name.replace('/', '_')`. -/
def replaceSlash (s : String) : String :=
  (s.toList.map (fun c => if c = '/' then '_' else c)).asString

/-- The per-unit field name built by `format` on the template
`\x7b\x7d.processed_client_requests`, holding the processed client certificate
requests of this unit. -/
def certsField (localName : String) : String :=
  replaceSlash localName ++ ".processed_client_requests"

/-- The scan of `TlsRequires.client_certs` over the flattened sequence of
data bags of the remote units: skips units where the field is absent or the
empty string, parses it (a parse failure raises), skips falsy parses, and
returns the first value of the first truthy parsed dict
(`list(certs_data.values())[0]`). -/
def client_certs_scan (field : String) : List Slot → Except PyErr (Option PyVal)
  | [] => .ok none
  | slot :: rest =>
      match pyGet slot field with
      | none => client_certs_scan field rest
      | some s =>
          if s = "" then client_certs_scan field rest
          else
            match jsonLoads s with
            | .error e => .error e
            | .ok v =>
                if jsonTruthy v then
                  match v with
                  | .pydict ((_, val) :: _) => .ok (some val)
                  | .pydict [] => .error .indexError
                  | _ => .error .attributeError
                else client_certs_scan field rest

/-- Embedding of `TlsRequires.client_certs`: looks up the per-unit scoped
`processed_client_requests` field on every unit of every `certificates`
relation. -/
def client_certs (localName : String) (relations : List (List Slot)) :
    Except PyErr (Option PyVal) :=
  client_certs_scan (certsField localName) relations.flatten

/-- Embedding of `EtcdProvides.set_client_credentials`: writes `client_key`,
`client_cert` and `client_ca` into the data bag of the local unit on every
relation of the `db` endpoint. -/
def set_client_credentials (key cert ca : String) (dbSlots : List Slot) :
    List Slot :=
  dbSlots.map (fun slot =>
    pyDictSet (pyDictSet (pyDictSet slot "client_key" key) "client_cert" cert)
      "client_ca" ca)

/-- Python truthiness of the result of `TlsRequires.root_ca_cert`. -/
def pyTruthyOptStr : Option String → Bool
  | none => false
  | some s => s ≠ ""

/-- Python truthiness of the result of `TlsRequires.client_certs`. -/
def pyTruthyOptJson : Option PyVal → Bool
  | none => false
  | some v => jsonTruthy v

/-- Python subscription `v[key]` where the result must be a string (the
relation data bag only accepts strings): raises `KeyError` when the key is
absent and a type error when `v` is not a dict of strings at `key`. -/
def jsonIndexStr (v : PyVal) (key : String) : Except PyErr String :=
  match v with
  | .pydict kvs =>
      match pyGet kvs key with
      | some (.pystr s) => .ok s
      | some _ => .error .typeError
      | none => .error .keyError
  | _ => .error .typeError

/-- Embedding of `KineCharm.on_certificates_relation_changed`: evaluates
`all([self.tls.root_ca_cert, self.tls.client_certs])` (Python truthiness
of both values) and returns with no publication when it is false;
otherwise subscripts `client_certs` at `key` and `cert` and
publishes them with the root CA via `set_client_credentials`.  Returns
the resulting `db` consumer data bags. -/
def on_certificates_relation_changed (localName : String)
    (certsRels : List (List Slot)) (dbSlots : List Slot) :
    Except PyErr (List Slot) :=
  match client_certs localName certsRels with
  | .error e => .error e
  | .ok certs =>
      let ca := root_ca_cert certsRels
      if pyTruthyOptStr ca && pyTruthyOptJson certs then
        match certs with
        | some cv =>
            (match jsonIndexStr cv "key", jsonIndexStr cv "cert" with
             | .ok key, .ok cert =>
                 .ok (set_client_credentials key cert (ca.getD "") dbSlots)
             | .error e, _ => .error e
             | _, .error e => .error e)
        | none => .ok dbSlots
      else .ok dbSlots

theorem isDigitChar_digitChar (d : Nat) (h : d < 10) :
    isDigitChar (digitChar d) = true := by
  interval_cases d <;> decide

theorem digitVal_digitChar (d : Nat) (h : d < 10) : digitVal (digitChar d) = d := by
  interval_cases d <;> decide

theorem natDigits_small (n : Nat) (h : n < 10) : natDigits n = [digitChar n] := by
  simp [natDigits, natDigitsAux, h]

theorem natDigitsAux_eq (n : Nat) : ∀ fuel acc, 0 < fuel → n < 10 ^ fuel →
    natDigitsAux fuel n acc = natDigits n ++ acc := by
  induction n using Nat.strong_induction_on with
  | _ n ih =>
    intro fuel acc hfuel hlt
    match fuel, hfuel with
    | f + 1, _ =>
      by_cases h10 : n < 10
      · simp [natDigitsAux, h10, natDigits_small n h10]
      · have hdiv : n / 10 < n := by omega
        have hf : 0 < f := by
          rcases Nat.eq_zero_or_pos f with hf0 | hf0
          · subst hf0; simp at hlt; omega
          · exact hf0
        have hlt' : n / 10 < 10 ^ f := by
          apply Nat.div_lt_of_lt_mul
          rw [← pow_succ']
          exact hlt
        have hstep : natDigitsAux (f + 1) n acc =
            natDigitsAux f (n / 10) (digitChar (n % 10) :: acc) := by
          simp [natDigitsAux, h10]
        have hself : natDigits n = natDigits (n / 10) ++ [digitChar (n % 10)] := by
          have hunf : natDigits n =
              natDigitsAux n (n / 10) (digitChar (n % 10) :: []) := by
            rw [natDigits]
            simp [natDigitsAux, h10]
          rw [hunf,
            ih (n / 10) hdiv n _ (by omega)
              (lt_of_le_of_lt (Nat.div_le_self n 10)
                (Nat.lt_pow_self (by norm_num) n))]
        rw [hstep, ih (n / 10) hdiv f _ hf hlt', hself, List.append_assoc]
        rfl

theorem natDigits_large (n : Nat) (h : 10 ≤ n) :
    natDigits n = natDigits (n / 10) ++ [digitChar (n % 10)] := by
  have hunf : natDigits n = natDigitsAux n (n / 10) (digitChar (n % 10) :: []) := by
    rw [natDigits]
    simp [natDigitsAux, Nat.not_lt.2 h]
  rw [hunf,
    natDigitsAux_eq (n / 10) n _ (by omega)
      (lt_of_le_of_lt (Nat.div_le_self n 10) (Nat.lt_pow_self (by norm_num) n))]

theorem natDigits_all_digits (n : Nat) :
    ∀ ch ∈ natDigits n, isDigitChar ch = true := by
  induction n using Nat.strong_induction_on with
  | _ n indh =>
    by_cases hsmall : n < 10
    · rw [natDigits_small n hsmall]
      intro ch hmem
      rw [List.mem_singleton] at hmem
      subst hmem
      exact isDigitChar_digitChar n hsmall
    · have hquot : n / 10 < n := by omega
      rw [natDigits_large n (by omega)]
      intro ch hmem
      rcases List.mem_append.1 hmem with hleft | hright
      · exact indh (n / 10) hquot ch hleft
      · rw [List.mem_singleton] at hright
        subst hright
        exact isDigitChar_digitChar _ (Nat.mod_lt _ (by omega))

theorem natDigits_ne_nil (n : Nat) : natDigits n ≠ [] := by
  by_cases h10 : n < 10
  · rw [natDigits_small n h10]; simp
  · rw [natDigits_large n (by omega)]; simp

theorem natDigits_foldl (n : Nat) :
    ∀ a0, (natDigits n).foldl (fun a c => a * 10 + digitVal c) a0 =
      a0 * 10 ^ (natDigits n).length + n := by
  induction n using Nat.strong_induction_on with
  | _ n indh =>
    intro a0
    by_cases hsmall : n < 10
    · rw [natDigits_small n hsmall]
      simp [List.foldl, digitVal_digitChar n hsmall]
    · have hquot : n / 10 < n := by omega
      rw [natDigits_large n (by omega), List.foldl_append, List.length_append]
      rw [indh (n / 10) hquot a0]
      simp only [List.foldl, List.length_singleton]
      rw [digitVal_digitChar _ (Nat.mod_lt _ (by omega))]
      have hsplit : 10 * (n / 10) + n % 10 = n := Nat.div_add_mod n 10
      calc (a0 * 10 ^ (natDigits (n / 10)).length + n / 10) * 10 + n % 10
          = a0 * (10 ^ (natDigits (n / 10)).length * 10) +
              (10 * (n / 10) + n % 10) := by ring
        _ = a0 * 10 ^ ((natDigits (n / 10)).length + 1) + n := by
            rw [hsplit, pow_succ]

theorem digitsToNat_natDigits (n : Nat) : digitsToNat (natDigits n) = some n := by
  unfold digitsToNat
  rw [if_neg (natDigits_ne_nil n), if_pos]
  · have := natDigits_foldl n 0
    simp only [Nat.zero_mul, Nat.zero_add] at this
    rw [this]
  · rw [List.all_eq_true]
    exact natDigits_all_digits n

theorem natDigits_head_ne_minus (n : Nat) : (natDigits n).head? ≠ some '-' := by
  obtain ⟨c, cs, hc⟩ := List.exists_cons_of_ne_nil (natDigits_ne_nil n)
  have hd : isDigitChar c = true :=
    natDigits_all_digits n c (by rw [hc]; exact List.mem_cons_self c cs)
  rw [hc]
  simp only [List.head?_cons, ne_eq, Option.some.injEq]
  intro h
  rw [h] at hd
  exact absurd hd (by decide)

theorem pyInt_natDigits (n : Nat) : pyInt (natDigits n) = .ok (n : Int) := by
  unfold pyInt
  rw [if_neg (natDigits_head_ne_minus n), digitsToNat_natDigits]

theorem natDigits_no_slash (n : Nat) : ∀ c ∈ natDigits n, c ≠ '/' := by
  intro c hc heq
  have hd := natDigits_all_digits n c hc
  rw [heq] at hd
  exact absurd hd (by decide)

theorem splitChar_no_sep (sep : Char) (cs : List Char)
    (h : ∀ c ∈ cs, c ≠ sep) : splitChar sep cs = [cs] := by
  induction cs with
  | nil => rfl
  | cons c t ih =>
    have hc : c ≠ sep := h c (List.mem_cons_self c t)
    rw [splitChar]
    simp only [hc, if_false, ih (fun x hx => h x (List.mem_cons_of_mem c hx))]

theorem splitChar_app_slash (ds : List Char) (h : ∀ c ∈ ds, c ≠ '/') :
    splitChar '/' ('a' :: 'p' :: 'p' :: '/' :: ds) = [['a', 'p', 'p'], ds] := by
  simp [splitChar, splitChar_no_sep '/' ds h]

theorem get_unit_id_app (k : Nat) :
    get_unit_id ("app/" ++ (natDigits k).asString) = .ok ((k : Int) % 9 + 1) := by
  have h1 : ("app/" ++ (natDigits k).asString).toList =
      'a' :: 'p' :: 'p' :: '/' :: natDigits k := by
    show ("app/" ++ (natDigits k).asString).data = _
    rw [String.data_append]
    rfl
  rw [get_unit_id, h1, splitChar_app_slash _ (natDigits_no_slash k)]
  simp only [List.get?]
  rw [pyInt_natDigits]

/-- Peers are untouched by `on_config_changed`: only the endpoint register
changes. -/
theorem on_config_changed_peers (s : ClusterState) :
    ((on_config_changed s).1).peers = s.peers := by
  unfold on_config_changed
  by_cases h : s.endpoint = some (get_dqlite_endpoint s.peers) <;> simp [h]

/-- Claim C6: for every node name of the form `app/k` with `k` a
nonnegative integer, `get_unit_id` returns `(k mod 9) + 1`, which lies in
`[1, 9]`, and consequently `get_unit_id "app/k" = get_unit_id "app/(k+9)"`. -/
theorem unit_id_mod_nine (k : Nat) :
    get_unit_id ("app/" ++ (natDigits k).asString) = .ok ((k : Int) % 9 + 1) ∧
    1 ≤ (k : Int) % 9 + 1 ∧ (k : Int) % 9 + 1 ≤ 9 ∧
    get_unit_id ("app/" ++ (natDigits k).asString) =
      get_unit_id ("app/" ++ (natDigits (k + 9)).asString) := by
  refine ⟨get_unit_id_app k, by omega, by omega, ?_⟩
  rw [get_unit_id_app k, get_unit_id_app (k + 9)]
  congr 2
  push_cast
  omega

/-- Claim C9: for every node id in `[1, 9]` and every address,
`format_peer_identity` returns `"{nodeId}:{address}:918{nodeId}"`, whose
trailing port component parses as the integer `9180 + nodeId`; at
`(5, "10.0.0.1")` it returns `"5:10.0.0.1:9185"`. -/
theorem peer_identity_format (n : Int) (addr : String) (h1 : 1 ≤ n) (h2 : n ≤ 9) :
    format_peer_identity n addr = pyStr n ++ ":" ++ addr ++ ":918" ++ pyStr n ∧
    pyInt ("918" ++ pyStr n).toList = .ok (9180 + n) ∧
    format_peer_identity 5 "10.0.0.1" = "5:10.0.0.1:9185" := by
  refine ⟨rfl, ?_, rfl⟩
  interval_cases n <;> rfl

/-- Witness for C9 at node id 5 and address `10.0.0.1`. -/
theorem peer_identity_format_witness :
    format_peer_identity 5 "10.0.0.1" = "5:10.0.0.1:9185" :=
  (peer_identity_format 5 "10.0.0.1" (by norm_num) (by norm_num)).2.2

/-- Claim C4: `get_dqlite_endpoint` is the pure function prepending
`"dqlite://?peer="` to the peers joined with `"&peer="`, characterized by
the join recurrence on nil, singleton and longer lists, and evaluating as
the claim states on the two-element example. -/
theorem dqlite_endpoint_join (p q : String) (ps : List String) :
    get_dqlite_endpoint ["1:0.0.0.0:9181", "2:10.0.0.2:9182"] =
      "dqlite://?peer=1:0.0.0.0:9181&peer=2:10.0.0.2:9182" ∧
    get_dqlite_endpoint [] = "dqlite://?peer=" ∧
    get_dqlite_endpoint [p] = "dqlite://?peer=" ++ p ∧
    get_dqlite_endpoint (p :: q :: ps) =
      "dqlite://?peer=" ++ (p ++ "&peer=" ++ pyJoin "&peer=" (q :: ps)) :=
  ⟨rfl, rfl, rfl, rfl⟩

/-- Claim C5: re-running `on_config_changed` with an unchanged peer list
reports no change the second time (so the snap reconfiguration and restart
fire at most once for a given endpoint), and when the freshly computed
endpoint equals the stored one the state is left untouched with no
restart. -/
theorem reconcile_idempotent (st : ClusterState) :
    (on_config_changed (on_config_changed st).1).2 = false ∧
    (on_config_changed (on_config_changed st).1).1 = (on_config_changed st).1 ∧
    (st.endpoint = some (get_dqlite_endpoint st.peers) →
      on_config_changed st = (st, false)) := by
  have hfix : ∀ s : ClusterState, s.endpoint = some (get_dqlite_endpoint s.peers) →
      on_config_changed s = (s, false) := by
    intro s h
    unfold on_config_changed
    simp [h]
  have hend : ((on_config_changed st).1).endpoint =
      some (get_dqlite_endpoint st.peers) := by
    unfold on_config_changed
    by_cases h : st.endpoint = some (get_dqlite_endpoint st.peers) <;> simp [h]
  have h2 : on_config_changed (on_config_changed st).1 =
      ((on_config_changed st).1, false) := by
    apply hfix
    rw [hend, on_config_changed_peers]
  exact ⟨by rw [h2], by rw [h2], hfix st⟩

/-- Witness for C5: a state already storing the endpoint of its peer list
is left unchanged with no restart. -/
theorem reconcile_idempotent_witness :
    on_config_changed ⟨[], some "dqlite://?peer="⟩ =
      (⟨[], some "dqlite://?peer="⟩, false) :=
  (reconcile_idempotent ⟨[], some "dqlite://?peer="⟩).2.2 rfl

/-- Claim C3: on every membership-change trigger the peer list is rebuilt
from scratch as a function of the announcements alone (so two rebuilds
from the same announcements agree regardless of prior state), with the
local self identity bound to `0.0.0.0` as its first element, including
when zero announcements are supplied. -/
theorem rebuild_membership_self_first (name : String) (i : Int)
    (h : get_unit_id name = .ok i) (st st' : ClusterState) (units : List Slot) :
    ∃ stOut b, on_cluster_relation_changed name st units = .ok (stOut, b) ∧
      stOut.peers = rebuild_peers i units ∧
      stOut.peers.head? = some (format_peer_identity i "0.0.0.0") ∧
      ∀ stOut' b', on_cluster_relation_changed name st' units = .ok (stOut', b') →
        stOut'.peers = stOut.peers := by
  have hpi : get_peer_identity name "0.0.0.0" =
      .ok (format_peer_identity i "0.0.0.0") := by
    rw [get_peer_identity, h]
  refine ⟨(on_config_changed {st with peers := rebuild_peers i units}).1,
          (on_config_changed {st with peers := rebuild_peers i units}).2,
          ?_, ?_, ?_, ?_⟩
  · simp only [on_cluster_relation_changed, hpi, Prod.mk.eta]
    rfl
  · rw [on_config_changed_peers]
  · rw [on_config_changed_peers]
    rfl
  · intro stOut' b' h'
    simp only [on_cluster_relation_changed, hpi] at h'
    have hinj := Except.ok.inj h'
    have h1 : stOut' =
        (on_config_changed {st' with peers := rebuild_peers i units}).1 :=
      (congrArg Prod.fst hinj).symm
    rw [h1, on_config_changed_peers, on_config_changed_peers]

/-- Witness for C3 on unit `app/0` with zero announcements, from two
different prior states. -/
theorem rebuild_membership_self_first_witness :
    ∃ stOut b, on_cluster_relation_changed "app/0" ⟨[], none⟩ [] = .ok (stOut, b) ∧
      stOut.peers = rebuild_peers 1 [] ∧
      stOut.peers.head? = some (format_peer_identity 1 "0.0.0.0") ∧
      ∀ stOut' b', on_cluster_relation_changed "app/0" ⟨["stale"], some "w"⟩ [] =
          .ok (stOut', b') → stOut'.peers = stOut.peers :=
  rebuild_membership_self_first "app/0" 1 rfl ⟨[], none⟩ ⟨["stale"], some "w"⟩ []

/-- Claim C7: the rebuilt peer list skips exactly the announcements
lacking a `peer_identity` field and appends every present one verbatim
(`filterMap` over the announcements), with no deduplication by node id:
two announcements carrying the same node id with different addresses both
appear in the membership list and hence both appear in the endpoint
string. -/
theorem rebuild_membership_no_dedup (i : Int) (units : List Slot) :
    collect_peer_identities units =
      units.filterMap (fun u => pyGet u "peer_identity") ∧
    rebuild_peers i units =
      format_peer_identity i "0.0.0.0" ::
        units.filterMap (fun u => pyGet u "peer_identity") ∧
    rebuild_peers 1
        [[("peer_identity", "3:10.0.0.1:9183")],
         [("peer_identity", "3:10.0.0.2:9183")]] =
      ["1:0.0.0.0:9181", "3:10.0.0.1:9183", "3:10.0.0.2:9183"] ∧
    get_dqlite_endpoint (rebuild_peers 1
        [[("peer_identity", "3:10.0.0.1:9183")],
         [("peer_identity", "3:10.0.0.2:9183")]]) =
      "dqlite://?peer=1:0.0.0.0:9181&peer=3:10.0.0.1:9183&peer=3:10.0.0.2:9183" := by
  have hcollect : ∀ us : List Slot, collect_peer_identities us =
      us.filterMap (fun u => pyGet u "peer_identity") := by
    intro us
    induction us with
    | nil => rfl
    | cons u rest ih =>
      rw [collect_peer_identities, List.filterMap_cons]
      cases pyGet u "peer_identity" <;> simp [ih]
  exact ⟨hcollect units, by rw [rebuild_peers, hcollect units], rfl, rfl⟩

/-- Claim C10: with no certificate-provider relation attached,
`request_client_cert` returns immediately: no error is raised and the
(empty) collection of relation data bags is returned unchanged, so no
shared-channel slot is written. -/
theorem request_client_cert_no_relation (cn : String) (sans : List String) :
    request_client_cert [] cn sans = .ok [] := rfl

/-- Claim C1 is violated by the code: `request_client_cert` assigns
`requests[cn] = \x7b'sans': sans\x7d` unconditionally, so a second call with
the same common name OVERWRITES the stored request (last write wins),
while the claim — and the docstring of the function itself — say the repeat call
is ignored (first write wins).  On a fresh relation, requesting
`("cn1", [])` and then `("cn1", ["alt"])` leaves the stored entry for
`cn1` serialized as `\x7b"sans": ["alt"]\x7d`, not the original
`\x7b"sans": []\x7d`. -/
theorem request_client_cert_repeat_overwrites :
    request_client_cert [[]] "cn1" [] =
      .ok [[("client_cert_requests", "\x7b\"cn1\": \x7b\"sans\": []\x7d\x7d")]] ∧
    request_client_cert
        [[("client_cert_requests", "\x7b\"cn1\": \x7b\"sans\": []\x7d\x7d")]]
        "cn1" ["alt"] =
      .ok [[("client_cert_requests", "\x7b\"cn1\": \x7b\"sans\": [\"alt\"]\x7d\x7d")]] ∧
    jsonLoads "\x7b\"cn1\": \x7b\"sans\": [\"alt\"]\x7d\x7d" =
      .ok (.pydict [("cn1", .pydict [("sans", .pylist [.pystr "alt"])])]) ∧
    jsonDumpsSorted (.pydict [("sans", .pylist [.pystr "alt"])]) ≠
      jsonDumpsSorted (.pydict [("sans", .pylist [])]) :=
  ⟨rfl, rfl, rfl, by decide⟩

/-- Claim C2 as stated is violated by the code: on a malformed serialized
map such as `"\x7b"`, `client_certs` raises a JSON decode error instead of
returning nothing. -/
theorem client_certs_malformed_raises :
    client_certs "kine/0" [[[("kine_0.processed_client_requests", "\x7b")]]] =
      .error .parseError := rfl

/-- Claim C2 amended: `client_certs` returns nothing — no value and no
error — when the per-node scoped field is absent, the empty string, or
the empty-map serialization `"\x7b\x7d"`; but a malformed serialization such
as `"\x7b"` raises a JSON decode error rather than being treated as absent. -/
theorem client_certs_not_ready (name : String) :
    client_certs name [[[]]] = .ok none ∧
    client_certs name [[[(certsField name, "")]]] = .ok none ∧
    client_certs name [[[(certsField name, "\x7b\x7d")]]] = .ok none ∧
    client_certs name [[[(certsField name, "\x7b")]]] = .error .parseError := by
  have hempty : jsonLoads "\x7b\x7d" = .ok (.pydict []) := rfl
  have hbad : jsonLoads "\x7b" = .error .parseError := rfl
  refine ⟨rfl, ?_, ?_, ?_⟩ <;>
    simp [client_certs, client_certs_scan, pyGet, hempty, hbad, jsonTruthy]

/-- Claim C8 as stated is violated by the code: here both readers yield a
value — the root CA is `"rootca"` and `client_certs` yields the empty map
parsed from the field value — yet the handler performs no publication,
because the gate tests Python truthiness and the empty map is falsy: the
consumer data bags come back unchanged. -/
theorem certificates_present_but_no_publication :
    root_ca_cert [[[("ca", "rootca"),
        ("kine_0.processed_client_requests", "\x7b\"cn1\": \x7b\x7d\x7d")]]] =
      some "rootca" ∧
    client_certs "kine/0" [[[("ca", "rootca"),
        ("kine_0.processed_client_requests", "\x7b\"cn1\": \x7b\x7d\x7d")]]] =
      .ok (some (.pydict [])) ∧
    on_certificates_relation_changed "kine/0" [[[("ca", "rootca"),
        ("kine_0.processed_client_requests", "\x7b\"cn1\": \x7b\x7d\x7d")]]] [[]] =
      .ok [[]] :=
  ⟨rfl, rfl, rfl⟩

/-- Claim C8 amended: given that reading the processed client requests
raises no parse error, publication is gated on Python truthiness of both
readers — when either yields nothing or a falsy value the handler returns
the consumer data bags unchanged with no error; when the root CA is a
non-empty string and the client-cert value is a truthy map carrying string
`key` and `cert` entries, it publishes the client key, client cert and
root CA to every consumer data bag. -/
theorem publication_gated_on_truthiness (localName : String)
    (certsRels : List (List Slot)) (dbSlots : List Slot) (certsOpt : Option PyVal)
    (hc : client_certs localName certsRels = .ok certsOpt) :
    ((pyTruthyOptStr (root_ca_cert certsRels) && pyTruthyOptJson certsOpt) = false →
      on_certificates_relation_changed localName certsRels dbSlots = .ok dbSlots) ∧
    (∀ caStr cv key cert,
      root_ca_cert certsRels = some caStr →
      certsOpt = some cv →
      jsonTruthy cv = true →
      caStr ≠ "" →
      jsonIndexStr cv "key" = .ok key →
      jsonIndexStr cv "cert" = .ok cert →
      on_certificates_relation_changed localName certsRels dbSlots =
        .ok (set_client_credentials key cert caStr dbSlots)) := by
  constructor
  · intro hfalse
    simp only [on_certificates_relation_changed, hc, hfalse]
    rfl
  · intro caStr cv key cert hca hcv htr hne hkey hcert
    simp only [on_certificates_relation_changed, hc, hca, hcv, hkey, hcert,
      pyTruthyOptStr, pyTruthyOptJson, htr]
    simp [hne]

/-- Witness for the amended C8 on a ready provider state: a truthy cert
record with `key` and `cert` entries and a non-empty root CA are published
into the consumer data bag. -/
theorem publication_gated_on_truthiness_witness :
    on_certificates_relation_changed "kine/0"
        [[[("ca", "r"), ("kine_0.processed_client_requests",
            "\x7b\"cn1\": \x7b\"key\":\"k\",\"cert\":\"c\"\x7d\x7d")]]] [[]] =
      .ok (set_client_credentials "k" "c" "r" [[]]) :=
  (publication_gated_on_truthiness "kine/0"
      [[[("ca", "r"), ("kine_0.processed_client_requests",
          "\x7b\"cn1\": \x7b\"key\":\"k\",\"cert\":\"c\"\x7d\x7d")]]] [[]]
      (some (.pydict [("key", .pystr "k"), ("cert", .pystr "c")])) rfl).2
    "r" (.pydict [("key", .pystr "k"), ("cert", .pystr "c")]) "k" "c"
    rfl rfl rfl (by decide) rfl rfl
